import Mathlib

/-!
Verification development for the PerspectivePrism backend
(`backend/app/main.py`, `backend/app/services/claim_extractor.py`,
`backend/app/core/config.py`).

The Python source is shallowly embedded: pure functions become Lean
functions, the in-memory job store becomes an association list that is
threaded explicitly, timestamps become integers counting seconds, and
float scores become rationals (the comparisons involved are exact at the
values in play).  Fallible code returns `Except`.  Definitions come
first, then the theorems about them.
-/

namespace PerspectivePrism

/-!
Overall-assessment rule.

Embedding of the nested function `compute_overall_assessment` of
`process_analysis` in `backend/app/main.py` (lines 111-123).  The Python
code reads only the `stance` string of each perspective analysis, counts
`"Support"` and `"Refute"` stances, and runs an if/elif chain whose
default is `"Mixed"`.  Note the order of the branches and the strict
comparison `deception_score > 7` — both taken verbatim from the source.
-/

structure PerspectiveAnalysis where
  stance : String
  confidence : ℚ
  explanation : String
deriving DecidableEq, Repr

def compute_overall_assessment (p_analyses : List PerspectiveAnalysis)
    (deception_score : ℚ) : String :=
  let support_count := (p_analyses.filter (fun p => p.stance = "Support")).length
  let refute_count := (p_analyses.filter (fun p => p.stance = "Refute")).length
  if support_count > refute_count ∧ support_count ≥ 2 then
    "Likely True"
  else if refute_count > support_count ∧ refute_count ≥ 2 then
    "Likely False"
  else if deception_score > 7 then
    "Suspicious/Deceptive"
  else
    "Mixed"

/-- A perspective analysis with stance `"Support"` (other fields arbitrary). -/
def supportPA : PerspectiveAnalysis :=
  { stance := "Support", confidence := 9/10, explanation := "supports" }

/-- A perspective analysis with stance `"Refute"` (other fields arbitrary). -/
def refutePA : PerspectiveAnalysis :=
  { stance := "Refute", confidence := 9/10, explanation := "refutes" }

/-!
Job store.

Embedding of the in-memory job store of `backend/app/main.py`:
`jobs: Dict[str, Dict[str, Any]]` with fields `status`, `result`,
`error`, `created_at` (line 48).  The dict becomes an association list
of `(job_id, record)` pairs; all store accesses in the source happen
under `jobs_lock`, so each locked region becomes one pure transition on
the store value.  Timestamps are seconds as integers.
-/

inductive JobStatus where
  | pending
  | processing
  | completed
  | failed
deriving DecidableEq, Repr

structure AnalysisMetadata where
  analyzed_at : Int
deriving DecidableEq, Repr

structure BiasIndicators where
  logical_fallacies : List String
  emotional_manipulation : List String
  deception_score : ℚ
deriving DecidableEq, Repr

structure ClientTruthProfile where
  overall_assessment : String
  perspectives : List (String × String)
  bias_indicators : BiasIndicators
deriving DecidableEq, Repr

structure ClientClaimAnalysis where
  claim_text : String
  video_timestamp_start : Option ℚ
  video_timestamp_end : Option ℚ
  truth_profile : ClientTruthProfile
deriving DecidableEq, Repr

structure AnalysisResponse where
  video_id : String
  metadata : AnalysisMetadata
  claims : List ClientClaimAnalysis
deriving DecidableEq, Repr

structure JobRecord where
  status : JobStatus
  result : Option AnalysisResponse
  error : Option String
  created_at : Int
deriving DecidableEq, Repr

abbrev JobStore := List (String × JobRecord)

/-- Dict lookup `jobs[job_id]` (first matching key). -/
def JobStore.lookup : JobStore → String → Option JobRecord
  | [], _ => none
  | (k, r) :: rest, job_id => if job_id = k then some r else JobStore.lookup rest job_id

/-- Dict membership test `job_id in jobs`. -/
def JobStore.member (store : JobStore) (job_id : String) : Bool :=
  (store.lookup job_id).isSome

/-- In-place update of one job's record (`jobs[job_id][...] = ...`). -/
def JobStore.setJob : JobStore → String → (JobRecord → JobRecord) → JobStore
  | [], _, _ => []
  | (k, r) :: rest, job_id, f =>
    if k = job_id then (k, f r) :: JobStore.setJob rest job_id f
    else (k, r) :: JobStore.setJob rest job_id f

/-- Embeds `main.py` lines 93-95 and 245-247: a status write guarded by
`if job_id in jobs`. -/
def updateStatusGuarded (store : JobStore) (job_id : String)
    (st : JobStatus) : JobStore :=
  if store.member job_id then
    store.setJob job_id (fun r => { r with status := st })
  else store

/-- Embeds `main.py` lines 166-168, 204-205 and 241-243: a snapshot
commit `jobs[job_id]["result"] = create_analysis_response(...)` guarded
by `if job_id in jobs`. -/
def commitSnapshotGuarded (store : JobStore) (job_id : String)
    (snap : AnalysisResponse) : JobStore :=
  if store.member job_id then
    store.setJob job_id (fun r => { r with result := some snap })
  else store

/-- Embeds `main.py` lines 251-257: the `except Exception` handler of
`process_analysis`.  Under the lock, if the job is still present its
status is set to `FAILED` and its error to `str(e)`; nothing else is
written. -/
def handleProcessFailure (store : JobStore) (job_id : String)
    (msg : String) : JobStore :=
  if store.member job_id then
    store.setJob job_id
      (fun r => { r with status := JobStatus.failed, error := some msg })
  else store

/-- Embeds `main.py` lines 59-82, one pass of `cleanup_jobs`: under the
lock, collect every job with `now - created_at > timedelta(hours=1)` and
delete those ids; the rest of the store is untouched. -/
def cleanupPass (now : Int) (store : JobStore) : JobStore :=
  List.filter (fun p => !(now - p.2.created_at > 3600)) store

/-- Embeds `main.py` line 65: `await asyncio.sleep(300)` between reaper
passes. -/
def CLEANUP_INTERVAL_SECONDS : Int := 300

/-- Embeds `main.py` line 70: jobs older than `timedelta(hours=1)` are
reaped. -/
def JOB_TTL_SECONDS : Int := 3600

/-- Errors surfacing from the HTTP handlers: an explicit
`HTTPException(status_code, detail)` raised by the handler, or an
ordinary uncaught Python exception (`ValueError` and the like), which
FastAPI does not translate into an HTTP 4xx response. -/
inductive ApiError where
  | valueError (msg : String)
  | httpException (status_code : Nat) (detail : String)
deriving DecidableEq, Repr

structure JobStatusResponse where
  job_id : String
  status : JobStatus
  result : Option AnalysisResponse
  error : Option String
deriving DecidableEq, Repr

/-- Embeds `main.py` lines 282-298, `get_job_status`: under the lock, a
missing id raises `HTTPException(404, "Job not found")`; otherwise the
job's status, result and error are returned as one consistent
response. -/
def get_job_status (store : JobStore) (job_id : String) :
    Except ApiError JobStatusResponse :=
  match store.lookup job_id with
  | none => Except.error (ApiError.httpException 404 "Job not found")
  | some job =>
      Except.ok
        { job_id := job_id, status := job.status,
          result := job.result, error := job.error }

/-- A sample job record used to instantiate witnesses. -/
def sampleRecord : JobRecord :=
  { status := JobStatus.processing, result := none,
    error := none, created_at := 100 }

/-- A sample committed snapshot used to instantiate witnesses. -/
def sampleSnapshot : AnalysisResponse :=
  { video_id := "vid", metadata := { analyzed_at := 0 }, claims := [] }

/-!
URL resolution and job creation.

`ClaimExtractor.extract_video_id` (`claim_extractor.py` lines 19-45)
branches on the result of `urllib.parse.urlparse`/`parse_qs`, which are
external library calls; their output is the embedded function's input: a
hostname, a path, and the parsed query multi-map.  On every unrecognized
shape the Python code raises `ValueError("Invalid YouTube URL")`, which
the embedding returns as `Except.error`.
-/

structure ParsedUrl where
  hostname : Option String
  path : String
  query : List (String × List String)
deriving DecidableEq, Repr

/-- First-match lookup in the `parse_qs` result (`p['v']`). -/
def queryParam (q : List (String × List String)) (key : String) :
    Option (List String) :=
  match q with
  | [] => none
  | (k, vs) :: rest => if k = key then some vs else queryParam rest key

def extract_video_id (u : ParsedUrl) : Except String String :=
  if u.hostname = some "youtu.be" then
    let video_id := u.path.drop 1
    if video_id = "" then Except.error "Invalid YouTube URL"
    else Except.ok video_id
  else if u.hostname = some "www.youtube.com" ∨ u.hostname = some "youtube.com" then
    if u.path = "/watch" then
      match queryParam u.query "v" with
      | none => Except.error "Invalid YouTube URL"
      | some [] => Except.error "Invalid YouTube URL"
      | some (v0 :: _) =>
          if v0 = "" then Except.error "Invalid YouTube URL" else Except.ok v0
    else if u.path.take 7 = "/embed/" then
      let parts := u.path.splitOn "/"
      if parts.length < 3 ∨ parts.getD 2 "" = "" then
        Except.error "Invalid YouTube URL"
      else Except.ok (parts.getD 2 "")
    else if u.path.take 3 = "/v/" then
      let parts := u.path.splitOn "/"
      if parts.length < 3 ∨ parts.getD 2 "" = "" then
        Except.error "Invalid YouTube URL"
      else Except.ok (parts.getD 2 "")
    else Except.error "Invalid YouTube URL"
  else Except.error "Invalid YouTube URL"

/-- Embeds `main.py` lines 259-280, `create_analysis_job`: calls
`extract_video_id` (whose `ValueError` would propagate uncaught), then
guards `if not video_id` with an `HTTPException(400, ...)`, then inserts
a fresh Pending record into the store.  The fresh uuid and the clock are
inputs. -/
def create_analysis_job (u : ParsedUrl) (new_job_id : String) (now : Int)
    (store : JobStore) : Except ApiError String × JobStore :=
  match extract_video_id u with
  | Except.error m => (Except.error (ApiError.valueError m), store)
  | Except.ok video_id =>
      if video_id = "" then
        (Except.error
          (ApiError.httpException 400
            "Invalid video URL: could not extract video ID"), store)
      else
        (Except.ok new_job_id,
         store ++ [(new_job_id,
           { status := JobStatus.pending, result := none,
             error := none, created_at := now })])

/-- A URL that resolves to no video id (wrong host). -/
def badUrl : ParsedUrl :=
  { hostname := some "example.com", path := "/video", query := [] }

/-!
Claim extraction.

`ClaimExtractor.extract_claims` (`claim_extractor.py` lines 71-161).
The LLM chat call and the JSON parse are external effects; the embedded
function takes their combined outcome as input: `Except.error` when
anything in the `try` block raises, `Except.ok none` when the response
content is empty (the code returns `[]`), and `Except.ok (some ds)` with
the parsed `claims` array otherwise.
-/

structure Claim where
  id : String
  text : String
  timestamp_start : Option ℚ
  timestamp_end : Option ℚ
  context : String
deriving DecidableEq, Repr

/-- One item of the parsed `claims` JSON array; every key may be absent
(`item.get(...)`). -/
structure ClaimData where
  text : Option String
  start_time : Option ℚ
  end_time : Option ℚ
  context : Option String
deriving DecidableEq, Repr

/-- Embeds `claim_extractor.py` lines 155-161: the claim fabricated by
the `except` branch of `extract_claims`. -/
def fallbackClaim : Claim :=
  { id := "fallback_1", text := "Error extracting claims. Please try again.",
    timestamp_start := some 0, timestamp_end := some 0,
    context := "Extraction failed." }

def extract_claims (llm_outcome : Except String (Option (List ClaimData))) :
    List Claim :=
  match llm_outcome with
  | Except.ok none => []
  | Except.ok (some claims_data) =>
      claims_data.enum.map (fun p =>
        { id := "claim_" ++ toString p.1,
          text := p.2.text.getD "",
          timestamp_start := p.2.start_time,
          timestamp_end := p.2.end_time,
          context := p.2.context.getD "" })
  | Except.error _ => [fallbackClaim]

/-!
Circuit breaker and resilient invocation.

`AnalysisService` (`backend/app/services/analysis_service.py`), which
holds the breaker fields `cb_failures`, `cb_open`, `cb_half_open`,
`cb_last_failure_time` exercised by `tests/test_reliability.py`, is not
under `src/`; the state machine below is modelled from the spec. -/

/-- Modelled from the spec: §3 CircuitBreakerState / §4.1 CircuitBreaker
of `spec.md`; the implementing `AnalysisService` is missing from `src/`.
Consecutive-failure counter, open flag, half-open flag, last failure
timestamp, and the configured threshold and reset timeout. -/
structure CircuitBreaker where
  failureCount : Nat
  isOpen : Bool
  halfOpen : Bool
  lastFailureTime : Int
  failureThreshold : Nat
  resetTimeout : Int
deriving DecidableEq, Repr

/-- Modelled from the spec: `shouldUsePrimary(now)` (§4.1).  Closed →
true; Open with the reset timeout elapsed → transition to HalfOpen and
true (the single probe); Open otherwise → false. -/
def shouldUsePrimary (cb : CircuitBreaker) (now : Int) :
    Bool × CircuitBreaker :=
  if !cb.isOpen then (true, cb)
  else if now - cb.lastFailureTime ≥ cb.resetTimeout then
    (true, { cb with halfOpen := true })
  else (false, cb)

/-- Modelled from the spec: `recordSuccess()` (§4.1) — reset the counter
and fully close. -/
def recordSuccess (cb : CircuitBreaker) : CircuitBreaker :=
  { cb with failureCount := 0, isOpen := false, halfOpen := false }

/-- Modelled from the spec: `recordFailure(now)` (§4.1) — increment the
counter and stamp the time; a failed half-open probe forces back to
Open; reaching the threshold while Closed opens the breaker. -/
def recordFailure (cb : CircuitBreaker) (now : Int) : CircuitBreaker :=
  let base := { cb with failureCount := cb.failureCount + 1,
                        lastFailureTime := now }
  if cb.halfOpen then { base with isOpen := true, halfOpen := false }
  else if cb.failureCount + 1 ≥ cb.failureThreshold then
    { base with isOpen := true }
  else base

inductive InvokeResult where
  | primaryResp (r : String)
  | backupResp (r : String)
  | exhausted (primary_cause backup_cause : String)
deriving DecidableEq, Repr

structure InvokeOutcome where
  result : InvokeResult
  breaker : CircuitBreaker
  attemptedPrimary : Bool
deriving DecidableEq, Repr

/-- Modelled from the spec: `ResilientInvoker.invoke` (§4.2).  The two
providers' would-be outcomes are inputs; the primary outcome is consulted
only when the breaker routes to the primary. -/
def invoke (cb : CircuitBreaker) (now : Int)
    (primary backup : Except String String) : InvokeOutcome :=
  let probe := shouldUsePrimary cb now
  if probe.1 then
    match primary with
    | Except.ok r =>
        { result := InvokeResult.primaryResp r,
          breaker := recordSuccess probe.2, attemptedPrimary := true }
    | Except.error e1 =>
        let cb2 := recordFailure probe.2 now
        match backup with
        | Except.ok r =>
            { result := InvokeResult.backupResp r, breaker := cb2,
              attemptedPrimary := true }
        | Except.error e2 =>
            { result := InvokeResult.exhausted e1 e2, breaker := cb2,
              attemptedPrimary := true }
  else
    match backup with
    | Except.ok r =>
        { result := InvokeResult.backupResp r, breaker := probe.2,
          attemptedPrimary := false }
    | Except.error e2 =>
        { result := InvokeResult.exhausted "primary not attempted" e2,
          breaker := probe.2, attemptedPrimary := false }

/-- Modelled from the spec: a breaker in its start state (Closed, zero
failures) with the given threshold and reset timeout. -/
def initialBreaker (threshold : Nat) (reset_timeout : Int) : CircuitBreaker :=
  { failureCount := 0, isOpen := false, halfOpen := false,
    lastFailureTime := 0, failureThreshold := threshold,
    resetTimeout := reset_timeout }

/-- An invocation during which the primary provider would fail and the
backup would succeed. -/
def primaryFailCall (cb : CircuitBreaker) (t : Int) (e r : String) :
    InvokeOutcome :=
  invoke cb t (Except.error e) (Except.ok r)

/-!
Object sharing between commits (reference model).

Claim C3 is about Python object identity, so this section models
references explicitly: a heap maps addresses to claim objects, the
pipeline's working list `claims_to_return` is a list of addresses, and
`create_analysis_response`'s `claims=list(cls)` (line 108) copies only
the list spine — the produced snapshot holds the same addresses.  The
in-place writes of lines 200 and 236-237 mutate the heap cell a
committed snapshot still points to. -/

structure TruthProfileObj where
  overall_assessment : String
  perspectives : List (String × String)
  deception_score : ℚ
deriving DecidableEq, Repr

structure ClaimObj where
  claim_text : String
  truth_profile : TruthProfileObj
deriving DecidableEq, Repr

abbrev Heap := List (Nat × ClaimObj)

def Heap.lookupRef : Heap → Nat → Option ClaimObj
  | [], _ => none
  | (a, c) :: rest, b => if b = a then some c else Heap.lookupRef rest b

/-- Mutate the truth profile stored at one address. -/
def Heap.writeTP : Heap → Nat → (TruthProfileObj → TruthProfileObj) → Heap
  | [], _, _ => []
  | (a, c) :: rest, b, f =>
    if a = b then
      (a, { c with truth_profile := f c.truth_profile }) :: Heap.writeTP rest b f
    else (a, c) :: Heap.writeTP rest b f

structure SnapshotRefs where
  video_id : String
  claimRefs : List Nat
deriving DecidableEq, Repr

/-- Embeds `create_analysis_response(vid, cls)` (lines 102-109) with
`claims=list(cls)`: a fresh list spine over the same claim-object
references. -/
def commitSnapshotRefs (vid : String) (working : List Nat) : SnapshotRefs :=
  { video_id := vid, claimRefs := working }

/-- Line 236: `claims_to_return[i].truth_profile.overall_assessment = ...`
— an in-place write through a shared reference. -/
def writeOverallAssessment (h : Heap) (a : Nat) (v : String) : Heap :=
  Heap.writeTP h a (fun tp => { tp with overall_assessment := v })

/-- Line 200: `claims_to_return[i].truth_profile.perspectives[key] = p_dict`
— an in-place dict write through a shared reference. -/
def writePerspectiveKey (h : Heap) (a : Nat) (key payload : String) : Heap :=
  Heap.writeTP h a (fun tp =>
    { tp with perspectives :=
        (tp.perspectives.filter (fun q => q.1 ≠ key)) ++ [(key, payload)] })

/-- What a reader of the job's result observes: dereference every claim
address of the committed snapshot in the current heap. -/
def readSnapshot (h : Heap) (s : SnapshotRefs) : List (Option ClaimObj) :=
  s.claimRefs.map (fun a => Heap.lookupRef h a)

/-- The heap at the moment a snapshot is committed: one claim, still in
its placeholder state. -/
def c3Heap : Heap :=
  [(0, { claim_text := "the earth is round",
         truth_profile :=
           { overall_assessment := "Analyzing...", perspectives := [],
             deception_score := 0 } })]

/-!
Orchestration commit sequence.

Value-level embedding of `process_analysis` (`main.py` lines 133-248):
the claim cap, the initial placeholder snapshot, the per-perspective
incremental commits, the per-claim finalizing commit, and the completion
commit.  The external analysis results are inputs: `pd i k` is the
perspective payload for claim `i` and perspective key `k`, `pa i` the
perspective analyses used for the overall assessment, `dr i` the
deception rating. -/

/-- Embeds `main.py` line 134. -/
def MAX_CLAIMS_PER_REQUEST : Nat := 3

/-- Embeds `main.py` lines 177-182: the fixed perspective fan-out, in
program order. -/
def perspectiveKeys : List String :=
  ["scientific", "journalistic", "partisan_left", "partisan_right"]

/-- Embeds `main.py` lines 144-162: the placeholder
`ClientClaimAnalysis` built for each capped claim before processing
starts. -/
def initialClientClaim (c : Claim) : ClientClaimAnalysis :=
  { claim_text := c.text,
    video_timestamp_start := c.timestamp_start,
    video_timestamp_end := c.timestamp_end,
    truth_profile :=
      { overall_assessment := "Analyzing...",
        perspectives := [],
        bias_indicators :=
          { logical_fallacies := [], emotional_manipulation := [],
            deception_score := 0 } } }

/-- Embeds `main.py` lines 102-109 at the value level. -/
def create_analysis_response (vid : String) (t : Int)
    (cls : List ClientClaimAnalysis) : AnalysisResponse :=
  { video_id := vid, metadata := { analyzed_at := t }, claims := cls }

/-- Python dict assignment `d[k] = v` on an insertion-ordered dict. -/
def assocSet : List (String × String) → String → String →
    List (String × String)
  | [], k, v => [(k, v)]
  | (k0, v0) :: rest, k, v =>
    if k0 = k then (k0, v) :: rest else (k0, v0) :: assocSet rest k v

/-- In-place update of entry `i`'s truth profile in the working list
(`claims_to_return[i].truth_profile... = ...`). -/
def modifyTP : List ClientClaimAnalysis → Nat →
    (ClientTruthProfile → ClientTruthProfile) → List ClientClaimAnalysis
  | [], _, _ => []
  | c :: cs, 0, f => { c with truth_profile := f c.truth_profile } :: cs
  | c :: cs, Nat.succ n, f => c :: modifyTP cs n f

/-- Embeds `process_single_perspective` for the four perspectives of
claim `i` (lines 188-218): each completion writes its perspective key
and commits; returns the committed working states in order together with
the final working state. -/
def perspectiveUpdates : List String → List ClientClaimAnalysis → Nat →
    (String → String) → List (List ClientClaimAnalysis) × List ClientClaimAnalysis
  | [], ws, _, _ => ([], ws)
  | k :: ks, ws, i, pd =>
    let ws2 := modifyTP ws i (fun tp =>
      { tp with perspectives := assocSet tp.perspectives k (pd k) })
    let rest := perspectiveUpdates ks ws2 i pd
    (ws2 :: rest.1, rest.2)

/-- Lines 229-237: the finalizing in-place writes for claim `i` (overall
assessment, then bias indicators), followed by one commit. -/
def finalizeClaim (ws : List ClientClaimAnalysis) (i : Nat) (oa : String)
    (ds : ℚ) : List ClientClaimAnalysis :=
  modifyTP ws i (fun tp =>
    { tp with overall_assessment := oa,
              bias_indicators :=
                { logical_fallacies := [], emotional_manipulation := [],
                  deception_score := ds } })

/-- The sequential per-claim loop (lines 172-243): for each claim index,
four perspective commits then the finalizing commit; the list collects
every committed working state. -/
def claimLoopStates (pd : Nat → String → String)
    (pa : Nat → List PerspectiveAnalysis) (dr : Nat → ℚ) :
    List Nat → List ClientClaimAnalysis → List (List ClientClaimAnalysis)
  | [], _ => []
  | i :: rest, ws =>
    let pu := perspectiveUpdates perspectiveKeys ws i (pd i)
    let wsF := finalizeClaim pu.2 i
      (compute_overall_assessment (pa i) (dr i)) (dr i)
    pu.1 ++ wsF :: claimLoopStates pd pa dr rest wsF

/-- All working states `process_analysis` ever commits for one job, in
order: the initial placeholder commit (lines 166-168), the loop's
commits, and the completion commit (lines 245-248), which re-commits the
final working state. -/
def orchestrationStates (claims : List Claim)
    (pd : Nat → String → String) (pa : Nat → List PerspectiveAnalysis)
    (dr : Nat → ℚ) : List (List ClientClaimAnalysis) :=
  let claims_to_process := claims.take MAX_CLAIMS_PER_REQUEST
  let initial := claims_to_process.map initialClientClaim
  let loopStates :=
    claimLoopStates pd pa dr (List.range claims_to_process.length) initial
  initial :: (loopStates ++ [loopStates.getLastD initial])

/-- The snapshots committed into the job store, one per working state. -/
def committedSnapshots (vid : String) (t : Int) (claims : List Claim)
    (pd : Nat → String → String) (pa : Nat → List PerspectiveAnalysis)
    (dr : Nat → ℚ) : List AnalysisResponse :=
  (orchestrationStates claims pd pa dr).map
    (fun ws => create_analysis_response vid t ws)

/-- The identity of a claim entry in a snapshot: its text and
timestamps; the truth profile is the part the pipeline mutates. -/
def claimKey (c : ClientClaimAnalysis) : String × Option ℚ × Option ℚ :=
  (c.claim_text, c.video_timestamp_start, c.video_timestamp_end)

/-- A concrete extracted claim for the C8 witness. -/
def mkC8Claim (n : Nat) : Claim :=
  { id := "claim_" ++ toString n, text := "claim text " ++ toString n,
    timestamp_start := some (n : ℚ), timestamp_end := some ((n : ℚ) + 1),
    context := "ctx" }

/-!
Theorems: helper lemmas first, then one theorem per claim (with
witnesses and counterexamples where applicable).
-/

/-- Lemma: `setJob` rewrites the (first) record stored under the target
id, applying `f` to it. -/
theorem lookup_setJob_self (store : JobStore) (job_id : String)
    (f : JobRecord → JobRecord) :
    (store.setJob job_id f).lookup job_id = (store.lookup job_id).map f := by
  induction store with
  | nil => rfl
  | cons p rest ih =>
    obtain ⟨k, r⟩ := p
    by_cases hk : k = job_id
    · subst hk
      simp [JobStore.setJob, JobStore.lookup]
    · have hk2 : ¬ job_id = k := fun h => hk h.symm
      simp only [JobStore.setJob, JobStore.lookup, hk, hk2, if_false]
      exact ih

/-- Lemma: `setJob` leaves every other id's record unchanged. -/
theorem lookup_setJob_other (store : JobStore) (job_id other : String)
    (f : JobRecord → JobRecord) (hne : other ≠ job_id) :
    (store.setJob job_id f).lookup other = store.lookup other := by
  induction store with
  | nil => rfl
  | cons p rest ih =>
    obtain ⟨k, r⟩ := p
    by_cases hk : k = job_id
    · subst hk
      simp [JobStore.setJob, JobStore.lookup, hne, ih]
    · by_cases ho : other = k
      · subst ho
        simp [JobStore.setJob, JobStore.lookup, hk]
      · simp only [JobStore.setJob, JobStore.lookup, hk, ho, if_false]
        exact ih

/-- Lemma: writing a truth profile at one heap address rewrites exactly
that address's object. -/
theorem lookupRef_writeTP_self (h : Heap) (a : Nat)
    (f : TruthProfileObj → TruthProfileObj) :
    Heap.lookupRef (Heap.writeTP h a f) a =
      (Heap.lookupRef h a).map
        (fun c => { c with truth_profile := f c.truth_profile }) := by
  induction h with
  | nil => rfl
  | cons p rest ih =>
    obtain ⟨b, c⟩ := p
    by_cases hb : b = a
    · subst hb
      simp [Heap.writeTP, Heap.lookupRef]
    · have hb2 : ¬ a = b := fun hh => hb hh.symm
      simp only [Heap.writeTP, Heap.lookupRef, hb, hb2, if_false]
      exact ih

/-- If every element of a list satisfies a property and so does the
fallback, then `getLastD` satisfies it. -/
theorem getLastD_of_forall {α : Type} (P : α → Prop) :
    ∀ (l : List α) (d : α), (∀ x ∈ l, P x) → P d → P (l.getLastD d) := by
  intro l
  induction l with
  | nil =>
    intro d _ hd
    simpa using hd
  | cons a as ih =>
    intro d hl _
    rw [List.getLastD_cons]
    exact ih a (fun x hx => hl x (List.mem_cons_of_mem a hx))
      (hl a (List.mem_cons_self a as))

/-- Lemma: a truth-profile update leaves every claim's identity (text
and timestamps) in place. -/
theorem modifyTP_map_claimKey :
    ∀ (ws : List ClientClaimAnalysis) (i : Nat)
      (f : ClientTruthProfile → ClientTruthProfile),
    (modifyTP ws i f).map claimKey = ws.map claimKey
  | [], _, _ => rfl
  | c :: cs, 0, f => by simp [modifyTP, claimKey]
  | c :: cs, Nat.succ n, f => by
    simp only [modifyTP, List.map_cons]
    rw [modifyTP_map_claimKey cs n f]

/-- Lemma: the perspective fan-out commits only truth-profile changes:
every intermediate state and the final state keep the claim
identities. -/
theorem perspectiveUpdates_map_claimKey (i : Nat) (pd : String → String) :
    ∀ (ks : List String) (ws : List ClientClaimAnalysis),
    (∀ st ∈ (perspectiveUpdates ks ws i pd).1,
       st.map claimKey = ws.map claimKey) ∧
    (perspectiveUpdates ks ws i pd).2.map claimKey = ws.map claimKey := by
  intro ks
  induction ks with
  | nil =>
    intro ws
    exact ⟨by simp [perspectiveUpdates], rfl⟩
  | cons k ks ih =>
    intro ws
    simp only [perspectiveUpdates]
    obtain ⟨ih1, ih2⟩ := ih (modifyTP ws i (fun tp =>
      { tp with perspectives := assocSet tp.perspectives k (pd k) }))
    have hm := modifyTP_map_claimKey ws i (fun tp =>
      { tp with perspectives := assocSet tp.perspectives k (pd k) })
    constructor
    · intro st hst
      rcases List.mem_cons.mp hst with h | h
      · rw [h]
        exact hm
      · rw [ih1 st h, hm]
    · rw [ih2, hm]

/-- Lemma: every state committed by the per-claim loop keeps the claim
identities of the working list it started from. -/
theorem claimLoopStates_map_claimKey (pd : Nat → String → String)
    (pa : Nat → List PerspectiveAnalysis) (dr : Nat → ℚ) :
    ∀ (idxs : List Nat) (ws : List ClientClaimAnalysis),
    ∀ st ∈ claimLoopStates pd pa dr idxs ws,
      st.map claimKey = ws.map claimKey := by
  intro idxs
  induction idxs with
  | nil =>
    intro ws st hst
    simp [claimLoopStates] at hst
  | cons i rest ih =>
    intro ws st hst
    simp only [claimLoopStates, List.mem_append, List.mem_cons] at hst
    obtain ⟨hp, hfin⟩ := perspectiveUpdates_map_claimKey i (pd i)
      perspectiveKeys ws
    have hwsF : (finalizeClaim
        (perspectiveUpdates perspectiveKeys ws i (pd i)).2 i
        (compute_overall_assessment (pa i) (dr i)) (dr i)).map claimKey
        = ws.map claimKey := by
      unfold finalizeClaim
      rw [modifyTP_map_claimKey, hfin]
    rcases hst with h | h | h
    · exact hp st h
    · rw [h, hwsF]
    · rw [ih _ st h, hwsF]

/-- Every working state the orchestration commits preserves the capped
claims' identities. -/
theorem orchestrationStates_map_claimKey (claims : List Claim)
    (pd : Nat → String → String) (pa : Nat → List PerspectiveAnalysis)
    (dr : Nat → ℚ) :
    ∀ ws ∈ orchestrationStates claims pd pa dr,
      ws.map claimKey =
        (claims.take MAX_CLAIMS_PER_REQUEST).map
          (fun c => (c.text, c.timestamp_start, c.timestamp_end)) := by
  intro ws hws
  have hinit : ((claims.take MAX_CLAIMS_PER_REQUEST).map
      initialClientClaim).map claimKey =
      (claims.take MAX_CLAIMS_PER_REQUEST).map
        (fun c => (c.text, c.timestamp_start, c.timestamp_end)) := by
    rw [List.map_map]
    rfl
  have hloop := claimLoopStates_map_claimKey pd pa dr
    (List.range (claims.take MAX_CLAIMS_PER_REQUEST).length)
    ((claims.take MAX_CLAIMS_PER_REQUEST).map initialClientClaim)
  simp only [orchestrationStates, List.mem_cons, List.mem_append,
    List.mem_singleton] at hws
  rcases hws with h | h | h | h
  · rw [h, hinit]
  · rw [hloop ws h, hinit]
  · rw [h]
    refine getLastD_of_forall
      (fun st => List.map claimKey st =
        (claims.take MAX_CLAIMS_PER_REQUEST).map
          (fun c => (c.text, c.timestamp_start, c.timestamp_end)))
      _ _ ?_ hinit
    intro st hst
    rw [hloop st hst, hinit]
  · exact absurd h (List.not_mem_nil ws)

/-- C1: the claim says a deception score ≥ 7.0 always yields
`"Suspicious/Deceptive"` regardless of support/refute counts, inclusively
at 7.0.  The code checks the consensus branches first and uses the strict
comparison `deception_score > 7`, so with two supporting stances and a
deception score of 8.5 the function returns `"Likely True"`, and with no
stances and a score of exactly 7.0 it returns `"Mixed"` — contradicting
the claim and the repository's own test
`test_assessment.py::test_high_deception_short_circuit` on both counts. -/
theorem C1_high_deception_not_override :
    compute_overall_assessment [supportPA, supportPA] (17/2) = "Likely True" ∧
    compute_overall_assessment [] 7 = "Mixed" ∧
    "Likely True" ≠ "Suspicious/Deceptive" ∧ "Mixed" ≠ "Suspicious/Deceptive" := by
  refine ⟨by decide, by decide, by decide, by decide⟩

/-- C2: the claim says a deception score in `[5.0, 7.0)` downgrades an
otherwise-true verdict (support > refute, support ≥ 2) to `"Mixed"`.  The
code has no moderate-deception branch at all: with two supporting stances
and a deception score of exactly 5.0 (and likewise 6.9) it returns
`"Likely True"`, contradicting the claim and the repository's own test
`test_assessment.py::test_moderate_deception_downgrade`.  (The
refute-side half of the claim does hold: two refuting stances stay
`"Likely False"` at score 5.0.) -/
theorem C2_no_moderate_deception_downgrade :
    compute_overall_assessment [supportPA, supportPA] 5 = "Likely True" ∧
    compute_overall_assessment [supportPA, supportPA] (69/10) = "Likely True" ∧
    "Likely True" ≠ "Mixed" ∧
    compute_overall_assessment [refutePA, refutePA, supportPA] 5 = "Likely False" := by
  refine ⟨by decide, by decide, by decide, by decide⟩

/-- C3 counterexample: commit a snapshot, then perform the line-236
style in-place write on the working claim object; the previously
committed snapshot reads differently before and after the write, so the
committed snapshot is not immutable. -/
theorem C3_committed_snapshot_mutates_counterexample :
    readSnapshot (writeOverallAssessment c3Heap 0 "Likely True")
        (commitSnapshotRefs "vid" [0])
      ≠ readSnapshot c3Heap (commitSnapshotRefs "vid" [0]) := by
  decide

/-- C3 amended: `create_analysis_response` copies only the list spine,
so a committed snapshot shares the claim objects with the working list;
an in-place overwrite of a shared claim's `overall_assessment` after the
commit is visible through the previously committed snapshot whenever the
snapshot references the mutated object and the written value differs
from the stored one. -/
theorem C3_commit_shares_claim_objects (h : Heap) (a : Nat)
    (v vid : String) (working : List Nat) (c : ClaimObj)
    (hmem : a ∈ working) (hc : Heap.lookupRef h a = some c)
    (hv : v ≠ c.truth_profile.overall_assessment) :
    Heap.lookupRef (writeOverallAssessment h a v) a =
      some { c with truth_profile :=
               { c.truth_profile with overall_assessment := v } } ∧
    readSnapshot (writeOverallAssessment h a v)
        (commitSnapshotRefs vid working)
      ≠ readSnapshot h (commitSnapshotRefs vid working) := by
  have hside : Heap.lookupRef (writeOverallAssessment h a v) a =
      some { c with truth_profile :=
               { c.truth_profile with overall_assessment := v } } := by
    unfold writeOverallAssessment
    rw [lookupRef_writeTP_self, hc]
    rfl
  refine ⟨hside, ?_⟩
  intro heq
  unfold readSnapshot commitSnapshotRefs at heq
  rw [List.map_eq_map_iff] at heq
  have := heq a hmem
  rw [hside, hc] at this
  have hoa := congrArg (fun o =>
    (o.map (fun cl => cl.truth_profile.overall_assessment)).getD "") this
  simp at hoa
  exact hv hoa

/-- Witness for C3's amended theorem at the concrete one-claim heap. -/
theorem C3_commit_shares_claim_objects_witness :
    readSnapshot (writeOverallAssessment c3Heap 0 "Likely True")
        (commitSnapshotRefs "snapshot" [0])
      ≠ readSnapshot c3Heap (commitSnapshotRefs "snapshot" [0]) :=
  (C3_commit_shares_claim_objects c3Heap 0 "Likely True" "snapshot" [0]
    { claim_text := "the earth is round",
      truth_profile :=
        { overall_assessment := "Analyzing...", perspectives := [],
          deception_score := 0 } }
    (by decide) (by decide) (by decide)).2

/-- C4 counterexample: the claim says an LLM failure inside
`extract_claims` propagates out and that extraction never fabricates
claims.  In the code the `except` branch swallows the exception and
returns a fabricated fallback claim: on a failing LLM call the function
succeeds with a non-empty claim list whose text was never extracted from
any transcript. -/
theorem C4_llm_failure_swallowed_counterexample :
    extract_claims (Except.error "LLM connection error") = [fallbackClaim] ∧
    fallbackClaim.text = "Error extracting claims. Please try again." ∧
    [fallbackClaim] ≠ ([] : List Claim) := by
  refine ⟨rfl, rfl, by decide⟩

/-- C4 amended: if the LLM call inside `extract_claims` raises, the
exception is caught and the function returns exactly one fabricated
fallback claim (id `fallback_1`, text
"Error extracting claims. Please try again.", zero timestamps, context
"Extraction failed."); the failure never propagates out of claim
extraction, so the enclosing job continues with the fabricated claim. -/
theorem C4_llm_failure_yields_fallback_claim (msg : String) :
    extract_claims (Except.error msg) = [fallbackClaim] := rfl

/-- C5: the `except` handler of `process_analysis` sets the failed job's
status to `FAILED` and its error to exactly the exception's message,
leaves the `result` field (the last committed snapshot, or `None`)
untouched, and touches no other job. -/
theorem C5_failure_handler_sets_status_error_keeps_result
    (store : JobStore) (job_id msg : String) (r : JobRecord)
    (h : store.lookup job_id = some r) :
    (handleProcessFailure store job_id msg).lookup job_id =
      some { r with status := JobStatus.failed, error := some msg } ∧
    ({ r with status := JobStatus.failed, error := some msg} : JobRecord).result
      = r.result ∧
    ∀ other, other ≠ job_id →
      (handleProcessFailure store job_id msg).lookup other
        = store.lookup other := by
  have hmem : store.member job_id = true := by
    unfold JobStore.member
    rw [h]
    rfl
  refine ⟨?_, rfl, ?_⟩
  · unfold handleProcessFailure
    rw [hmem, if_pos rfl, lookup_setJob_self, h]
    rfl
  · intro other hne
    unfold handleProcessFailure
    rw [hmem, if_pos rfl, lookup_setJob_other _ _ _ _ hne]

/-- Witness for C5 at a concrete store. -/
theorem C5_failure_handler_witness :
    (handleProcessFailure [("job-1", sampleRecord)] "job-1" "boom").lookup "job-1"
      = some { sampleRecord with status := JobStatus.failed, error := some "boom" } :=
  (C5_failure_handler_sets_status_error_keeps_result
    [("job-1", sampleRecord)] "job-1" "boom" sampleRecord (by decide)).1

/-- C6: the claim says an unresolvable URL is rejected with
`InvalidInput` (HTTP 400) and creates no job.  The half about the job
record holds: the store is returned unchanged.  But the `ValueError`
raised by `extract_video_id` propagates uncaught out of
`create_analysis_job` — the `if not video_id` guard that would raise
`HTTPException(400, ...)` is dead code, because `extract_video_id`
raises instead of returning an empty id — so the rejection is not the
claimed HTTP 400. -/
theorem C6_unresolvable_url_uncaught_value_error :
    create_analysis_job badUrl "job-1" 0 []
      = (Except.error (ApiError.valueError "Invalid YouTube URL"), []) ∧
    ApiError.valueError "Invalid YouTube URL"
      ≠ ApiError.httpException 400
          "Invalid video URL: could not extract video ID" := by
  refine ⟨rfl, by decide⟩

/-- C7: with `failureThreshold = 3`, exactly three consecutive primary
failures flip the open flag (it is still closed after one and after two),
and the next invocation inside the reset-timeout window does not attempt
the primary at all and returns the backup's response. -/
theorem C7_three_failures_trip_breaker_then_backup_only
    (T t1 t2 t3 t4 : Int) (e r : String) (hW : t4 - t3 < T) :
    (primaryFailCall (initialBreaker 3 T) t1 e r).breaker.isOpen = false ∧
    (primaryFailCall
      (primaryFailCall (initialBreaker 3 T) t1 e r).breaker
      t2 e r).breaker.isOpen = false ∧
    (primaryFailCall
      (primaryFailCall
        (primaryFailCall (initialBreaker 3 T) t1 e r).breaker
        t2 e r).breaker
      t3 e r).breaker.isOpen = true ∧
    (primaryFailCall
      (primaryFailCall
        (primaryFailCall (initialBreaker 3 T) t1 e r).breaker
        t2 e r).breaker
      t3 e r).breaker.failureCount = 3 ∧
    (primaryFailCall
      (primaryFailCall
        (primaryFailCall
          (primaryFailCall (initialBreaker 3 T) t1 e r).breaker
          t2 e r).breaker
        t3 e r).breaker
      t4 e r).attemptedPrimary = false ∧
    (primaryFailCall
      (primaryFailCall
        (primaryFailCall
          (primaryFailCall (initialBreaker 3 T) t1 e r).breaker
          t2 e r).breaker
        t3 e r).breaker
      t4 e r).result = InvokeResult.backupResp r := by
  have hlt : ¬ t4 - t3 ≥ T := not_le.mpr hW
  simp [primaryFailCall, invoke, shouldUsePrimary, recordFailure,
        recordSuccess, initialBreaker, hlt]

/-- Witness for C7 at concrete times (reset timeout 10, failures at
times 1, 2, 3, fourth call at time 4). -/
theorem C7_three_failures_witness :
    (4 : Int) - 3 < 10 ∧
    (primaryFailCall
      (primaryFailCall
        (primaryFailCall
          (primaryFailCall (initialBreaker 3 10) 1 "err" "ok").breaker
          2 "err" "ok").breaker
        3 "err" "ok").breaker
      4 "err" "ok").attemptedPrimary = false :=
  ⟨by decide,
   (C7_three_failures_trip_breaker_then_backup_only 10 1 2 3 4 "err" "ok"
     (by decide)).2.2.2.2.1⟩

/-- C8: every snapshot `process_analysis` commits for a job contains
exactly the first `min(n, 3)` extracted claims, in extraction order,
identified by text and timestamps; in particular the claim cap of 3 is
applied to every commit. -/
theorem C8_every_snapshot_has_capped_claims (vid : String) (t : Int)
    (claims : List Claim) (pd : Nat → String → String)
    (pa : Nat → List PerspectiveAnalysis) (dr : Nat → ℚ)
    (s : AnalysisResponse)
    (hs : s ∈ committedSnapshots vid t claims pd pa dr) :
    s.claims.length = min claims.length 3 ∧
    s.claims.map claimKey =
      (claims.take 3).map
        (fun c => (c.text, c.timestamp_start, c.timestamp_end)) := by
  simp only [committedSnapshots, List.mem_map] at hs
  obtain ⟨ws, hws, hseq⟩ := hs
  have hkey := orchestrationStates_map_claimKey claims pd pa dr ws hws
  have hcl : s.claims = ws := by
    rw [← hseq]
    rfl
  have hkey2 : s.claims.map claimKey =
      (claims.take 3).map
        (fun c => (c.text, c.timestamp_start, c.timestamp_end)) := by
    rw [hcl]
    exact hkey
  refine ⟨?_, hkey2⟩
  have hlen := congrArg List.length hkey2
  simp only [List.length_map, List.length_take] at hlen
  rw [hlen, Nat.min_comm]

/-- Witness for C8: four extracted claims; the initial committed
snapshot holds exactly `min(4, 3) = 3` claims. -/
theorem C8_capped_claims_witness :
    (create_analysis_response "vid" 0
      (([mkC8Claim 0, mkC8Claim 1, mkC8Claim 2, mkC8Claim 3].take
          MAX_CLAIMS_PER_REQUEST).map initialClientClaim)).claims.length
      = min 4 3 := by
  have hmem : create_analysis_response "vid" 0
      (([mkC8Claim 0, mkC8Claim 1, mkC8Claim 2, mkC8Claim 3].take
          MAX_CLAIMS_PER_REQUEST).map initialClientClaim)
      ∈ committedSnapshots "vid" 0
          [mkC8Claim 0, mkC8Claim 1, mkC8Claim 2, mkC8Claim 3]
          (fun _ _ => "payload") (fun _ => []) (fun _ => 0) := by
    simp only [committedSnapshots, orchestrationStates, List.map_cons]
    exact List.mem_cons_self _ _
  exact (C8_every_snapshot_has_capped_claims "vid" 0
    [mkC8Claim 0, mkC8Claim 1, mkC8Claim 2, mkC8Claim 3]
    (fun _ _ => "payload") (fun _ => []) (fun _ => 0) _ hmem).1

/-- C9: one reaper pass keeps a `(job_id, record)` entry — with the
record unchanged — exactly when the job's age `now - created_at` does
not exceed the 1-hour TTL; the condition never looks at the job's
status; and the constants are 1 hour TTL and 5 minute pass interval. -/
theorem C9_reaper_pass_removes_exactly_expired (now : Int) (store : JobStore) :
    (∀ p : String × JobRecord,
       p ∈ cleanupPass now store ↔
         p ∈ store ∧ ¬ now - p.2.created_at > JOB_TTL_SECONDS) ∧
    JOB_TTL_SECONDS = 60 * 60 ∧ CLEANUP_INTERVAL_SECONDS = 5 * 60 := by
  refine ⟨?_, by decide, by decide⟩
  intro p
  simp [cleanupPass, List.mem_filter, JOB_TTL_SECONDS]

/-- C10: every store write performed by the orchestration — the status
updates, the snapshot commits, and the error write of the failure
handler — is guarded by `if job_id in jobs`, so on an id the reaper has
evicted all of them leave the store exactly as it is (in particular the
job is never re-inserted), and the status read keeps answering 404. -/
theorem C10_evicted_job_writes_are_noops (store : JobStore) (job_id : String)
    (h : store.lookup job_id = none) :
    (∀ st, updateStatusGuarded store job_id st = store) ∧
    (∀ snap, commitSnapshotGuarded store job_id snap = store) ∧
    (∀ msg, handleProcessFailure store job_id msg = store) ∧
    get_job_status store job_id
      = Except.error (ApiError.httpException 404 "Job not found") := by
  have hmem : store.member job_id = false := by
    unfold JobStore.member
    rw [h]
    rfl
  refine ⟨?_, ?_, ?_, ?_⟩
  · intro st
    unfold updateStatusGuarded
    rw [hmem]
    rfl
  · intro snap
    unfold commitSnapshotGuarded
    rw [hmem]
    rfl
  · intro msg
    unfold handleProcessFailure
    rw [hmem]
    rfl
  · unfold get_job_status
    rw [h]

/-- Witness for C10 at a concrete store missing the id `"gone"`. -/
theorem C10_evicted_job_witness :
    updateStatusGuarded [("job-1", sampleRecord)] "gone" JobStatus.completed
      = [("job-1", sampleRecord)] ∧
    commitSnapshotGuarded [("job-1", sampleRecord)] "gone" sampleSnapshot
      = [("job-1", sampleRecord)] ∧
    handleProcessFailure [("job-1", sampleRecord)] "gone" "boom"
      = [("job-1", sampleRecord)] ∧
    get_job_status [("job-1", sampleRecord)] "gone"
      = Except.error (ApiError.httpException 404 "Job not found") := by
  have h := C10_evicted_job_writes_are_noops [("job-1", sampleRecord)] "gone" (by decide)
  exact ⟨h.1 JobStatus.completed, h.2.1 sampleSnapshot, h.2.2.1 "boom", h.2.2.2⟩

end PerspectivePrism
